import Mathlib

/-!
Shallow embedding of the decision engine in `src/botVGC.py` (class
`VGCHeuristicsRandom`).  Scores are modelled as exact rationals (`Rat`);
the Python code computes the same expressions in floating point, and every
constant in the source is a short decimal literal.  External collaborator
data (the generation type chart) is modelled as an explicit function
parameter, and the poke-env object graph is modelled by plain structures
carrying exactly the fields the source reads.
-/

/-- A stat-stage table (`pokemon.boosts`); the source reads the `atk`,
`spa` and `spe` entries with default 0. -/
structure Boosts where
  atk : Int
  spa : Int
  spe : Int
deriving DecidableEq, Repr

/-- The polymorphic `move.target` field: a plain string, an object exposing
`.name` and/or `.value`, or absent (`None`) — mirroring the cases handled
by `_target_str`. -/
inductive TargetField where
  | str (s : String)
  | obj (name : Option String) (value : Option String) (rest : String)
  | absent
deriving DecidableEq, Repr

/-- The fields of a poke-env move object that the source reads.
`base_power` is a natural number (poke-env base powers are nonnegative
ints); `accuracy` is `none` when the move is always-hit. -/
structure Move where
  id : String
  type : Option String
  base_power : Nat
  accuracy : Option Rat
  category : String
  target : TargetField
  recharge : Bool
deriving DecidableEq, Repr

/-- The fields of a poke-env pokemon object that the source reads.
Elemental types are modelled by their name strings; `last_move` holds the
id of the last move the pokemon used, when known. -/
structure Pokemon where
  species : String
  current_hp_fraction : Option Rat
  status : Option String
  boosts : Boosts
  types : List String
  ability : Option String
  item : Option String
  fainted : Bool
  last_move : Option String
deriving DecidableEq, Repr

/-- The generation type chart, as consumed through
`atk_type.damage_multiplier(*defender.types, type_chart=...)`:
a function from (attacking type, defending type) to a multiplier. -/
abbrev TypeChart := String → String → Rat

-- Constant id sets of the source (Python sets of lowercase ids).

/-- Source set `SETUP_IDS`. -/
def setup_ids : List String :=
  ["swordsdance", "nastyplot", "calmmind", "quiverdance", "bulkup"]

/-- Source set `PROTECT_IDS`. -/
def protect_ids : List String :=
  ["protect", "detect", "spikyshield", "kingsshield", "banefulbunker", "silktrap"]

/-- Source set `SPEED_CTRL`. -/
def speed_ctrl_ids : List String :=
  ["trickroom", "tailwind", "icywind", "electroweb"]

/-- Source set `REDIRECT_IDS`. -/
def redirect_ids : List String := ["followme", "ragepowder"]

/-- Source set `PIVOT_IDS`. -/
def pivot_ids : List String :=
  ["uturn", "voltswitch", "flipturn", "partingshot", "teleport"]

/-- Source set `WIDE_GUARD_IDS`. -/
def wide_guard_ids : List String := ["wideguard"]

/-- Source set `SPREAD_HINTS`. -/
def spread_hints : List String :=
  ["earthquake", "bulldoze", "rockslide", "dazzlinggleam", "heatwave",
   "snarl", "muddywater", "eruption", "blizzard", "discharge", "hypervoice",
   "sludgewave", "water_spout", "makeitrain", "glaciallance", "originpulse",
   "precipiceblades", "astralbarrage"]

/-- Source set `AOE_FRIENDLY_FIRE`. -/
def aoe_friendly_fire : List String :=
  ["earthquake", "bulldoze", "eruption", "water_spout", "surf", "discharge",
   "sludgewave", "explosion", "selfdestruct"]

/-- Source set `HARMFUL_ALLY_SINGLES`. -/
def harmful_ally_singles : List String := ["beatup"]

/-- Source constant `SPREAD_DAMAGE_MOD`. -/
def spread_damage_mod : Rat := 0.75

/-- Python's `str.lower()` on the ASCII identifiers this bot handles
(a structurally recursive equivalent of `String.toLower`, so that closed
evaluations reduce in the kernel). -/
def lowerStr (s : String) : String := ⟨s.data.map Char.toLower⟩

/-- Python's substring containment `pat in s`. -/
def containsSubstring (s pat : String) : Bool :=
  (List.range (s.toList.length + 1)).any
    (fun i => pat.toList.isPrefixOf (s.toList.drop i))

/-- Source method `_target_str`: normalize `move.target` to a lowercase string
(string → lowered; object → its `.name` if present, else its `.value` if
present, else `str(t)`; absent → `""`). -/
def target_str (move : Move) : String :=
  match move.target with
  | .str s => lowerStr s
  | .obj (some n) _ _ => lowerStr n
  | .obj none (some v) _ => lowerStr v
  | .obj none none r => lowerStr r
  | .absent => ""

/-- Source method `_is_spread`. -/
def is_spread (move : Move) : Bool :=
  let t := target_str move
  let mid := lowerStr move.id
  spread_hints.contains mid ||
    (["alladjacentfoes", "alladjacent", "all", "foes"] : List String).contains t

/-- Source method `_requires_explicit_target`. -/
def requires_explicit_target (move : Move) : Bool :=
  if is_spread move then false
  else
    let t := target_str move
    if (["self", "ally", "allyteam", "allyside", "foeside", "allies",
         "randomnormal"] : List String).contains t then false
    else (["normal", "adjacentfoe", "adjacentally", "any"] : List String).contains t

/-- Source method `_is_physical`. -/
def is_physical (move : Move) : Bool := lowerStr move.category = "physical"

/-- Source method `_is_special`. -/
def is_special (move : Move) : Bool := lowerStr move.category = "special"

/-- Source method `_stage_mod`: `(2 + max(stage, 0)) / (2 if stage >= 0 else (2 - stage))`. -/
def stage_mod (stage : Int) : Rat :=
  (2 + max (stage : Rat) 0) / (if 0 ≤ stage then 2 else 2 - (stage : Rat))

/-- Source method `_eff`: 1.0 when the attacking type or the defender is missing, else
the product of the per-defending-type chart multipliers. -/
def eff (chart : TypeChart) (atk_type : Option String) (defender : Option Pokemon) : Rat :=
  match atk_type, defender with
  | some a, some d => if a = "" then 1 else (d.types.map (fun t => chart a t)).prod
  | _, _ => 1

/-- Source method `_stab`. -/
def stab (move : Move) (attacker : Pokemon) : Rat :=
  match move.type with
  | some t => if t ≠ "" ∧ t ∈ attacker.types then 1.5 else 1
  | none => 1

/-- Source method `_acc`: `move.accuracy or 1.0`. -/
def acc (move : Move) : Rat :=
  match move.accuracy with
  | some a => if a = 0 then 1 else a
  | none => 1

/-- Source method `_atk_mult`. -/
def atk_mult (me : Pokemon) (move : Move) : Rat :=
  if is_physical move then
    stage_mod me.boosts.atk * (if me.status = some "brn" then 0.65 else 1)
  else if is_special move then
    stage_mod me.boosts.spa
  else 1

/-- Source method `_protect_risk_factor`. -/
def protect_risk_factor (target : Pokemon) : Rat :=
  match target.last_move with
  | some lastId => if protect_ids.contains (lowerStr lastId) then 0.6 else 1
  | none => 1

/-- Per-opponent memory record (`{"protect": ..., "speed_ctrl": ...}`). -/
structure MemRec where
  protect : Bool
  speed_ctrl : Bool
deriving DecidableEq, Repr

/-- The `target.current_hp_fraction is not None and ... < 0.35` test used
by both scorers. -/
def low_hp (p : Pokemon) : Bool :=
  match p.current_hp_fraction with
  | some h => decide (h < 0.35)
  | none => false

/-- Source method `_move_score_vs_single`. -/
def move_score_vs_single (chart : TypeChart) (move : Move) (me target : Pokemon)
    (mem : MemRec) : Rat :=
  let mid := lowerStr move.id
  let t := target_str move
  if (["adjacentally", "ally", "any"] : List String).contains t ∧
      0 < move.base_power ∧ harmful_ally_singles.contains mid then 0
  else if move.base_power = 0 then
    if setup_ids.any (fun k => containsSubstring mid k) then
      let need : Int :=
        if containsSubstring mid "swordsdance" || containsSubstring mid "bulkup" then
          -me.boosts.atk
        else if (["nastyplot", "calmmind", "quiverdance"] : List String).any
            (fun k => containsSubstring mid k) then
          -me.boosts.spa
        else 0
      26 + 1.5 * ((max 0 need : Int) : Rat)
    else if speed_ctrl_ids.any (fun k => containsSubstring mid k) then
      let spe_penalty := me.boosts.spe
      let par_pen : Int := if me.status = some "par" then 1 else 0
      32 + 3 * ((max 0 (-spe_penalty + par_pen) : Int) : Rat)
    else if redirect_ids.contains mid then 28
    else if protect_ids.contains mid then 28 + (if mem.protect then 3 else 0)
    else if wide_guard_ids.contains mid then 27
    else if pivot_ids.contains mid then
      12 + (if me.boosts.atk ≤ -2 ∨ me.boosts.spa ≤ -2 then 3 else 0)
    else 4
  else
    let e := eff chart move.type (some target)
    if e = 0 then 0
    else
      let score := (move.base_power : Rat) * stab move me * e * acc move * atk_mult me move
      let score := if 4 ≤ e then score * 1.20 else if 2 ≤ e then score * 1.12 else score
      let score := if low_hp target then score * 1.15 else score
      let score := if move.recharge || containsSubstring mid "hyperbeam" then
          score * 0.7 else score
      score * protect_risk_factor target

/-- Source method `_ally_safe_for_aoe`. -/
def ally_safe_for_aoe (move_id : String) (move_type : Option String)
    (ally : Option Pokemon) : Bool :=
  match ally with
  | none => true
  | some a =>
    let ability := lowerStr (a.ability.getD "")
    if ability = "telepathy" then true
    else
      let mid := lowerStr move_id
      let types := a.types
      let item := lowerStr (a.item.getD "")
      let _ := move_type
      if mid = "earthquake" ∨ mid = "bulldoze" then
        types.contains "Flying" || ability = "levitate" || item = "airballoon"
      else if mid = "explosion" ∨ mid = "selfdestruct" then
        types.contains "Ghost"
      else if mid = "discharge" then
        types.contains "Ground" || ability = "voltabsorb" || ability = "lightningrod"
      else if mid = "surf" ∨ mid = "water_spout" then
        ability = "waterabsorb" || ability = "dryskin"
      else if mid = "heatwave" ∨ mid = "eruption" then
        ability = "flashfire"
      else if mid = "sludgewave" then false
      else false

/-- The friendly-fire-penalty condition in `_move_score_spread` (lines
273–276): id in `AOE_FRIENDLY_FIRE`, ally present, at least one live
opponent, ally not deemed safe. -/
def ff_penalty_cond (move : Move) (ally : Option Pokemon) (liveOpps : List Pokemon) : Prop :=
  aoe_friendly_fire.contains (lowerStr move.id) = true ∧
    ally.isSome = true ∧ 1 ≤ liveOpps.length ∧
    ally_safe_for_aoe (lowerStr move.id) move.type ally = false

instance (move : Move) (ally : Option Pokemon) (liveOpps : List Pokemon) :
    Decidable (ff_penalty_cond move ally liveOpps) := by
  unfold ff_penalty_cond; infer_instance

/-- The per-target part computed by the loop body of `_move_score_spread`
(lines 263–270): base power × STAB × effectiveness × accuracy × attack
multiplier, tier bonus ×1.12 at effectiveness ≥ 4 or ×1.06 at ≥ 2, low-HP
bonus ×1.10 below 0.35, and the protect-risk factor. -/
def spread_part (chart : TypeChart) (move : Move) (me : Pokemon) (t : Pokemon) : Rat :=
  let e := eff chart move.type (some t)
  let part := (move.base_power : Rat) * stab move me * e * acc move * atk_mult me move
  let part := if 4 ≤ e then part * 1.12 else if 2 ≤ e then part * 1.06 else part
  let part := if low_hp t then part * 1.10 else part
  part * protect_risk_factor t

/-- Source method `_move_score_spread`.  The Python loop `continue`s on immune targets;
here the fold skips them the same way. -/
def move_score_spread (chart : TypeChart) (move : Move) (me : Pokemon)
    (opps : List Pokemon) (mem : MemRec) (ally : Option Pokemon) : Rat :=
  let liveOpps := opps.filter (fun o => !o.fainted)
  let _ := mem
  let total := liveOpps.foldl (fun sofar t =>
    if eff chart move.type (some t) = 0 then sofar
    else sofar + spread_part chart move me t) 0
  let total := if ff_penalty_cond move ally liveOpps then total * 0.20 else total
  total * spread_damage_mod * 1.03

/-- The aggregate of `_move_score_spread` as it would be computed with the
friendly-fire penalty branch removed (the comparison point named by the
spec's "0.20× what it would otherwise be"). -/
def move_score_spread_no_penalty (chart : TypeChart) (move : Move) (me : Pokemon)
    (opps : List Pokemon) (mem : MemRec) : Rat :=
  let liveOpps := opps.filter (fun o => !o.fainted)
  let _ := mem
  let total := liveOpps.foldl (fun sofar t =>
    if eff chart move.type (some t) = 0 then sofar
    else sofar + spread_part chart move me t) 0
  total * spread_damage_mod * 1.03

-- ---------- Opponent profile memory (`series_memory`) ----------

/-- A pokemon of the opponent's known roster, as read by
`_update_series_mem_from_battle` (`mon.moves` — here the move ids). -/
structure TeamMon where
  moves : List String
deriving DecidableEq, Repr

/-- The shape of `battle.available_moves`: a list of per-slot lists, or a
flat list for the acting slot. -/
inductive MovesShape where
  | nested (l : List (List Move))
  | flat (l : List Move)
deriving DecidableEq, Repr

/-- The fields of the battle snapshot that `choose_move` and its helpers
read.  `turn` is `none` when the snapshot lacks the attribute (reading it
then raises, see `read_turn`); active lists may contain `none` entries for
empty slots. -/
structure Battle where
  turn : Option Nat
  opponent_username : Option String
  active_pokemon : List (Option Pokemon)
  opponent_active_pokemon : List (Option Pokemon)
  available_moves : MovesShape
  available_moves2 : Option (List Move)
  opponent_team : List (Option TeamMon)
deriving DecidableEq, Repr

/-- Source field `self.series_memory`: a map from opponent identity to a `MemRec`,
modelled as an association list (first match wins, insertion appends). -/
abbrev MemMap := List (String × MemRec)

/-- The key used by `_get_series_mem`:
`getattr(battle, "opponent_username", None) or "_unknown_"` (Python `or`
replaces both `None` and the empty string). -/
def mem_key (b : Battle) : String :=
  match b.opponent_username with
  | some s => if s = "" then "_unknown_" else s
  | none => "_unknown_"

/-- Source method `_get_series_mem`: returns the record for the battle's opponent,
creating it with both flags false on first reference; also returns the
(possibly extended) map. -/
def get_series_mem (m : MemMap) (b : Battle) : MemRec × MemMap :=
  let k := mem_key b
  match List.lookup k m with
  | some r => (r, m)
  | none => (⟨false, false⟩, m ++ [(k, ⟨false, false⟩)])

/-- Replace the value stored at key `k` (the in-place dict mutation of
`_update_series_mem_from_battle`). -/
def set_key (m : MemMap) (k : String) (r : MemRec) : MemMap :=
  m.map (fun p => if p.1 = k then (k, r) else p)

/-- The per-roster flag scan of `_update_series_mem_from_battle`: for each
known opponent pokemon with a nonempty move set, set the `protect` /
`speed_ctrl` flags when a move id intersects the respective id set. -/
def team_flags (team : List (Option TeamMon)) (r : MemRec) : MemRec :=
  team.foldl (fun rec0 mon? =>
    match mon? with
    | none => rec0
    | some mon =>
      if mon.moves.isEmpty then rec0
      else
        let ids := mon.moves.map lowerStr
        ⟨rec0.protect || ids.any (fun i => protect_ids.contains i),
         rec0.speed_ctrl || ids.any (fun i => speed_ctrl_ids.contains i)⟩) r

/-- Source method `_update_series_mem_from_battle`. -/
def update_series_mem (m : MemMap) (b : Battle) : MemMap :=
  let g := get_series_mem m b
  set_key g.2 (mem_key b) (team_flags b.opponent_team g.1)

/-- The stored `protect` flag for key `k` (false when the key is absent). -/
def protect_flag (m : MemMap) (k : String) : Bool :=
  ((List.lookup k m).map (fun r => r.protect)).getD false

/-- The stored `speed_ctrl` flag for key `k` (false when the key is absent). -/
def speed_flag (m : MemMap) (k : String) : Bool :=
  ((List.lookup k m).map (fun r => r.speed_ctrl)).getD false

-- ---------- Turn decision orchestrator ----------

/-- Source method `_slot_index`: index of `me` among the first two active slots, 0 when
not found. -/
def slot_index (b : Battle) (me : Pokemon) : Nat :=
  ((b.active_pokemon.take 2).findIdx? (fun p => p == some me)).getD 0

/-- Source method `_moves_for_slot`. -/
def moves_for_slot (b : Battle) (slot : Nat) : List Move :=
  match b.available_moves with
  | .nested l =>
    if l.isEmpty then
      match b.available_moves2 with
      | some alt => if slot = 0 then [] else alt
      | none => []
    else l.getD slot []
  | .flat l =>
    match b.available_moves2 with
    | some alt => if slot = 0 then l else alt
    | none => l

/-- A candidate tuple `(score, move, target_index_ps, reason)`. -/
abbrev Cand := Rat × Move × Nat × String

/-- The `tmap` of `_best_move_and_target`:
`[(live_opps[0], 1)] + ([(live_opps[1], 2)] if len(live_opps) > 1 else [])`. -/
def tmap_of : List Pokemon → List (Pokemon × Nat)
  | [] => []
  | [o1] => [(o1, 1)]
  | o1 :: o2 :: _ => [(o1, 1), (o2, 2)]

/-- The `prefer_slot and ps == prefer_slot` focus test (Python truthiness:
`None` and 0 are falsy). -/
def prefer_hits (prefer : Option Nat) (ps : Nat) : Bool :=
  match prefer with
  | some p => decide (p ≠ 0) && (ps == p)
  | none => false

/-- The candidate list built by `_best_move_and_target` (lines 315–331):
spread candidates first, then single-target candidates over `tmap`,
keeping only strictly positive scores. -/
def candidates_list (chart : TypeChart) (myMoves : List Move) (me : Pokemon)
    (opps : List Pokemon) (mem : MemRec) (ally : Option Pokemon)
    (prefer : Option Nat) : List Cand :=
  let liveOpps := opps.filter (fun o => !o.fainted)
  let spreadC := myMoves.filterMap (fun m =>
    if is_spread m then
      let s := move_score_spread chart m me opps mem ally
      if 0 < s then some (s, m, 0, "spread") else none
    else none)
  let tmap := tmap_of liveOpps
  let singleC := myMoves.flatMap (fun m =>
    if is_spread m then []
    else tmap.filterMap (fun tp =>
      let s0 := move_score_vs_single chart m me tp.1 mem
      let s := if prefer_hits prefer tp.2 then s0 * 1.20 else s0
      if 0 < s then some (s, m, tp.2, "single") else none))
  spreadC ++ singleC

/-- Source method `_best_move_and_target`: `(score, move, target_index_ps, reason)`,
`target_index_ps` 1/2, or 0 for auto/spread.  The Python stable
`sort(reverse=True)` on scores is `mergeSort` with the ≥ comparator. -/
def best_move_and_target (chart : TypeChart) (b : Battle) (me : Pokemon)
    (opps : List Pokemon) (mem : MemRec) (ally : Option Pokemon)
    (prefer : Option Nat) : Rat × Option Move × Nat × String :=
  let slot := slot_index b me
  let myMoves := moves_for_slot b slot
  if myMoves.isEmpty then (0, none, 0, "no-moves")
  else
    let liveOpps := opps.filter (fun o => !o.fainted)
    if liveOpps.isEmpty then (0, none, 0, "no-opps")
    else
      match (candidates_list chart myMoves me opps mem ally prefer).mergeSort
          (fun c d => decide (d.1 ≤ c.1)) with
      | [] => (0, none, 0, "no-cands")
      | best :: _ => (best.1, some best.2.1, best.2.2.1, best.2.2.2)

/-- A per-slot order: `create_order(move)` or
`create_order(move, move_target=ps)`. -/
structure Order where
  move : Move
  move_target : Option Nat
deriving DecidableEq, Repr

/-- The turn-level decision returned by `choose_move`: either the external
uniform-random fallback `choose_random_doubles_move(battle)`, or a
`DoubleBattleOrder` of two per-slot orders. -/
inductive Decision where
  | random
  | double (o0 o1 : Order)
deriving DecidableEq, Repr

/-- Reading `battle.turn` directly (as the `dbg` f-strings of
`choose_move` do) raises `AttributeError` when the snapshot lacks the
attribute; every other battle read in `choose_move` goes through
`getattr` with a default and is total. -/
def read_turn (b : Battle) : Except String Nat :=
  match b.turn with
  | some t => .ok t
  | none => .error "AttributeError: turn"

/-- One slot of `choose_move` (lines 358–380 for slot 0, 383–404 for slot
1): `.inr (order, boundTarget)` when an order was produced (`boundTarget`
is the explicit target slot when one was bound — slot 0 stores it in
`_prefer_target_slot`), `.inl ()` when the slot falls through to the
full-turn random decision. -/
def slot_eval (chart : TypeChart) (b : Battle) (mem : MemRec) (me : Pokemon)
    (oppList : List Pokemon) (ally : Option Pokemon) (prefer : Option Nat)
    (slot : Nat) : Except String (Sum Unit (Order × Option Nat)) := do
  let r := best_move_and_target chart b me oppList mem ally prefer
  match r.2.1 with
  | some mv =>
    if requires_explicit_target mv ∧ (r.2.2.1 = 1 ∨ r.2.2.1 = 2) then do
      let _ ← read_turn b
      return .inr (⟨mv, some r.2.2.1⟩, some r.2.2.1)
    else do
      let _ ← read_turn b
      return .inr (⟨mv, none⟩, none)
  | none =>
    let slotMoves := moves_for_slot b slot
    match (slotMoves.find? (fun m => decide (0 < m.base_power) && !(is_spread m))).orElse
        (fun _ => slotMoves.find? (fun m => decide (0 < m.base_power))) with
    | some mv => do
      let _ ← read_turn b
      return .inr (⟨mv, none⟩, none)
    | none => do
      let _ ← read_turn b
      return .inl ()

/-- The body of `choose_move` (the code inside its `try`, lines 346–413);
an `AttributeError` on `battle.turn` surfaces as `.error`. -/
def choose_move_body (chart : TypeChart) (memMap : MemMap) (b : Battle) :
    Except String Decision := do
  let mem := (get_series_mem memMap b).1
  let meList := b.active_pokemon.filterMap id
  let oppList := b.opponent_active_pokemon.filterMap id
  match meList with
  | [] => return Decision.random
  | me0 :: meRest =>
    match ← slot_eval chart b mem me0 oppList meRest.head? none 0 with
    | .inl _ => return Decision.random
    | .inr (o0, prefer) =>
      match meRest with
      | [] => do
        -- orders[1] is still None: the final completeness loop logs
        -- (reading battle.turn) and returns the random decision.
        let _ ← read_turn b
        return Decision.random
      | me1 :: _ =>
        match ← slot_eval chart b mem me1 oppList (some me0) prefer 1 with
        | .inl _ => return Decision.random
        | .inr (o1, _) => do
          let _ ← read_turn b
          return Decision.double o0 o1

/-- Source method `choose_move`: the body wrapped in the top-level `try/except` that
converts any raised exception into the uniform-random fallback. -/
def choose_move (chart : TypeChart) (memMap : MemMap) (b : Battle) : Decision :=
  match choose_move_body chart memMap b with
  | .ok d => d
  | .error _ => Decision.random

-- ---------- Theorems ----------

/-- C10: `stage_mod` is total and strictly positive on every integer
stage, not only on [-6, +6]: its denominator is 2 for stage ≥ 0 and
2 − stage ≥ 3 for stage < 0, so the division is never by zero and the
result is always > 0. -/
theorem stage_mod_total_and_positive :
    ∀ s : Int,
      stage_mod s = (2 + max (s : Rat) 0) / (if 0 ≤ s then 2 else 2 - (s : Rat)) ∧
      (if 0 ≤ s then (2 : Rat) else 2 - (s : Rat)) ≠ 0 ∧
      (if 0 ≤ s then ((2 : Rat) = 2) else (3 ≤ 2 - (s : Rat))) ∧
      0 < stage_mod s := by
  intro s
  have hd : (0 : Rat) < (if 0 ≤ s then (2 : Rat) else 2 - (s : Rat)) := by
    by_cases h : 0 ≤ s
    · simp [h]
    · have hs : s ≤ -1 := by omega
      have hs' : (s : Rat) ≤ -1 := by exact_mod_cast hs
      simp only [h, if_false]
      linarith
  have hn : (0 : Rat) < 2 + max (s : Rat) 0 := by
    have : (0 : Rat) ≤ max (s : Rat) 0 := le_max_right _ _
    linarith
  refine ⟨rfl, ne_of_gt hd, ?_, ?_⟩
  · by_cases h : 0 ≤ s
    · simp [h]
    · have hs : s ≤ -1 := by omega
      have hs' : (s : Rat) ≤ -1 := by exact_mod_cast hs
      simp only [h, if_false]
      linarith
  · unfold stage_mod
    exact div_pos hn hd

/-- C7: a damaging move (base power > 0) whose normalized target is
`adjacentally`, `ally` or `any` and whose id is in the unsafe-on-ally set
scores exactly 0 against every opposing target. -/
theorem harmful_ally_single_scores_zero :
    ∀ (chart : TypeChart) (move : Move) (me target : Pokemon) (mem : MemRec),
      (target_str move = "adjacentally" ∨ target_str move = "ally" ∨
        target_str move = "any") →
      move.base_power ≠ 0 →
      harmful_ally_singles.contains (lowerStr move.id) = true →
      move_score_vs_single chart move me target mem = 0 := by
  intro chart move me target mem ht hbp hmid
  have hcont : (["adjacentally", "ally", "any"] : List String).contains
      (target_str move) = true := by
    rcases ht with h | h | h <;> rw [h] <;> decide
  simp only [move_score_vs_single]
  rw [if_pos ⟨hcont, Nat.pos_of_ne_zero hbp, hmid⟩]

/-- Concrete input for C7: Beat Up aimed with target spec `any`. -/
def beatup_move : Move := ⟨"beatup", some "dark", 10, some 1, "physical", .str "any", false⟩

/-- A neutral type chart for concrete evaluations. -/
def chart_one : TypeChart := fun _ _ => 1

/-- A concrete attacker with neutral stages. -/
def mon_a : Pokemon :=
  ⟨"zacian", some 1, none, ⟨0, 0, 0⟩, ["fairy", "steel"], none, none, false, none⟩

/-- A concrete opposing target. -/
def mon_b : Pokemon :=
  ⟨"dragapult", some 1, none, ⟨0, 0, 0⟩, ["dragon", "ghost"], none, none, false, none⟩

/-- The empty opponent-profile record. -/
def mem_zero : MemRec := ⟨false, false⟩

/-- Witness for C7 at a concrete input. -/
theorem harmful_ally_single_scores_zero_witness :
    move_score_vs_single chart_one beatup_move mon_a mon_b mem_zero = 0 :=
  harmful_ally_single_scores_zero chart_one beatup_move mon_a mon_b mem_zero
    (by decide) (by decide) (by decide)

/-- Concrete input for C2: a move whose normalized target specification is
`foeside` and whose id is not in the known-spread set. -/
def foeside_move : Move := ⟨"spikes", some "ground", 0, none, "status", .str "foeSide", false⟩

/-- C2 counterexample: the spread classifier's target set is
`{alladjacentfoes, alladjacent, all, foes}` — it does not include
`foeside`, so this move is not classified as spread even though the claim
says any foe-side move is. -/
theorem is_spread_foeside_counterexample :
    target_str foeside_move = "foeside" ∧
    spread_hints.contains (lowerStr foeside_move.id) = false ∧
    is_spread foeside_move = false := by
  refine ⟨by decide, by decide, by decide⟩

/-- C2 amended: the spread classifier returns true iff the move's id is in
the known-spread set or its normalized target specification is one of
`alladjacentfoes`, `alladjacent`, `all`, `foes` (not `foeside`). -/
theorem is_spread_iff :
    ∀ move : Move,
      is_spread move = true ↔
        (lowerStr move.id ∈ spread_hints ∨
          target_str move ∈ (["alladjacentfoes", "alladjacent", "all", "foes"] :
            List String)) := by
  intro move
  simp [is_spread, List.contains, List.elem_iff]

/-- Concrete input for C1: Swords Dance used at attack stage 0. -/
def swords_dance_move : Move :=
  ⟨"swordsdance", some "normal", 0, none, "status", .str "self", false⟩

/-- C1 counterexample: at attack stage 0, Swords Dance scores 26.  Under
the stage-cap reading (stages cap at +6, so six stages are still needed)
the claimed score would be 26 + 1.5·(6 − 0) = 35; the code awards no bonus
at any stage ≥ 0. -/
theorem setup_score_cap_counterexample :
    move_score_vs_single chart_one swords_dance_move mon_a mon_b mem_zero = 26 ∧
    (26 : Rat) ≠ 26 + 1.5 * ((6 : Rat) - 0) := by
  constructor
  · simp +decide [move_score_vs_single, swords_dance_move, mon_a, mem_zero]
  · norm_num

/-- C1 amended: a stat-raising setup move (base power 0, id in the setup
set) scores 26 plus 1.5 per stage the relevant stat (attack for
swordsdance/bulkup, special attack for nastyplot/calmmind/quiverdance) is
below neutral (stage 0), the bonus being 0 once the stage is ≥ 0. -/
theorem setup_score_amended :
    ∀ (chart : TypeChart) (move : Move) (me target : Pokemon) (mem : MemRec),
      move.base_power = 0 →
      setup_ids.contains (lowerStr move.id) = true →
      move_score_vs_single chart move me target mem =
        26 + 1.5 * ((max 0 (-(if lowerStr move.id = "swordsdance" ∨
            lowerStr move.id = "bulkup" then me.boosts.atk else me.boosts.spa)) :
          Int) : Rat) := by
  intro chart move me target mem hbp hmem
  have hcases : lowerStr move.id = "swordsdance" ∨ lowerStr move.id = "nastyplot" ∨
      lowerStr move.id = "calmmind" ∨ lowerStr move.id = "quiverdance" ∨
      lowerStr move.id = "bulkup" := by
    simpa [setup_ids, List.contains] using hmem
  rcases hcases with h | h | h | h | h <;>
    simp [move_score_vs_single, h, hbp, containsSubstring, setup_ids,
      speed_ctrl_ids, List.range, List.range.loop]

/-- A concrete attacker for the C1 witness, with attack stage −2. -/
def mon_a_dropped : Pokemon :=
  ⟨"zacian", some 1, none, ⟨-2, 0, 0⟩, ["fairy", "steel"], none, none, false, none⟩

/-- Witness for C1 amended at a concrete input (attack stage −2, score
26 + 1.5·2 = 29). -/
theorem setup_score_amended_witness :
    move_score_vs_single chart_one swords_dance_move mon_a_dropped mon_b mem_zero =
      26 + 1.5 * ((max 0 (-(if lowerStr swords_dance_move.id = "swordsdance" ∨
          lowerStr swords_dance_move.id = "bulkup" then mon_a_dropped.boosts.atk
        else mon_a_dropped.boosts.spa)) : Int) : Rat) :=
  setup_score_amended chart_one swords_dance_move mon_a_dropped mon_b mem_zero
    (by decide) (by decide)

/-- The accumulation loop of `_move_score_spread` equals the sum of the
per-target parts over the non-immune targets. -/
theorem spread_fold_eq_sum (chart : TypeChart) (move : Move) (me : Pokemon) :
    ∀ (l : List Pokemon) (a : Rat),
      l.foldl (fun sofar t =>
        if eff chart move.type (some t) = 0 then sofar
        else sofar + spread_part chart move me t) a =
      a + ((l.filter (fun t => decide ¬(eff chart move.type (some t) = 0))).map
        (spread_part chart move me)).sum := by
  intro l
  induction l with
  | nil => intro a; simp
  | cons h t ih =>
    intro a
    by_cases he : eff chart move.type (some h) = 0
    · simp [he, ih]
    · simp [he, ih, List.filter_cons]
      ring

/-- C4: with no friendly-fire penalty applicable, the aggregate spread
score is exactly 0.75 × 1.03 × the sum over live non-immune opponents of
the per-target contribution `spread_part`. -/
theorem spread_no_penalty_sum :
    ∀ (chart : TypeChart) (move : Move) (me : Pokemon) (opps : List Pokemon)
      (mem : MemRec) (ally : Option Pokemon),
      ¬ ff_penalty_cond move ally (opps.filter (fun o => !o.fainted)) →
      move_score_spread chart move me opps mem ally =
        0.75 * 1.03 *
          (((opps.filter (fun o => !o.fainted)).filter
              (fun t => decide ¬(eff chart move.type (some t) = 0))).map
            (spread_part chart move me)).sum := by
  intro chart move me opps mem ally hpen
  simp only [move_score_spread]
  rw [if_neg hpen, spread_fold_eq_sum]
  simp only [spread_damage_mod, zero_add]
  ring

/-- Concrete spread move for the C4/C5 witnesses. -/
def earthquake_move : Move :=
  ⟨"earthquake", some "ground", 100, some 1, "physical", .str "allAdjacent", false⟩

/-- Witness for C4 at a concrete input (no ally present, one live
opponent). -/
theorem spread_no_penalty_sum_witness :
    move_score_spread chart_one earthquake_move mon_a [mon_b] mem_zero none =
      0.75 * 1.03 *
        ((([mon_b].filter (fun o => !o.fainted)).filter
            (fun t => decide ¬(eff chart_one earthquake_move.type (some t) = 0))).map
          (spread_part chart_one earthquake_move mon_a)).sum :=
  spread_no_penalty_sum chart_one earthquake_move mon_a [mon_b] mem_zero none
    (by simp [ff_penalty_cond])

/-- C5: a friendly-fire spread move with an ally present, at least one
live opponent hit, and the ally not deemed safe scores exactly 0.20 times
the aggregate computed without that penalty. -/
theorem spread_friendly_fire_penalty :
    ∀ (chart : TypeChart) (move : Move) (me : Pokemon) (opps : List Pokemon)
      (mem : MemRec) (a : Pokemon),
      aoe_friendly_fire.contains (lowerStr move.id) = true →
      (∃ t ∈ opps, t.fainted = false ∧ eff chart move.type (some t) ≠ 0) →
      ally_safe_for_aoe (lowerStr move.id) move.type (some a) = false →
      move_score_spread chart move me opps mem (some a) =
        0.20 * move_score_spread_no_penalty chart move me opps mem := by
  intro chart move me opps mem a hff hhit hsafe
  have hlen : 1 ≤ (opps.filter (fun o => !o.fainted)).length := by
    obtain ⟨t, htmem, htlive, _⟩ := hhit
    have : t ∈ opps.filter (fun o => !o.fainted) := by
      simp [List.mem_filter, htmem, htlive]
    calc 1 = [t].length := rfl
      _ ≤ (opps.filter (fun o => !o.fainted)).length :=
        List.length_pos.mpr (fun h => by simp [h] at this)
  have hcond : ff_penalty_cond move (some a) (opps.filter (fun o => !o.fainted)) :=
    ⟨hff, rfl, hlen, hsafe⟩
  simp only [move_score_spread, move_score_spread_no_penalty]
  rw [if_pos hcond]
  ring

/-- A concrete ally with no immunity to Earthquake. -/
def mon_c : Pokemon :=
  ⟨"primarina", some 1, none, ⟨0, 0, 0⟩, ["Water", "Fairy"], none, none, false, none⟩

/-- Witness for C5 at a concrete input. -/
theorem spread_friendly_fire_penalty_witness :
    move_score_spread chart_one earthquake_move mon_a [mon_b] mem_zero (some mon_c) =
      0.20 * move_score_spread_no_penalty chart_one earthquake_move mon_a [mon_b] mem_zero :=
  spread_friendly_fire_penalty chart_one earthquake_move mon_a [mon_b] mem_zero mon_c
    (by decide)
    ⟨mon_b, by simp, rfl, by norm_num [eff, chart_one, earthquake_move, mon_b]⟩
    (by decide)

/-- A damaging move against a fully immune target scores 0 (lines
235–237). -/
theorem single_immune_zero (chart : TypeChart) (move : Move) (me target : Pokemon)
    (mem : MemRec) (hbp : move.base_power ≠ 0)
    (he : eff chart move.type (some target) = 0) :
    move_score_vs_single chart move me target mem = 0 := by
  simp only [move_score_vs_single]
  by_cases h1 : (["adjacentally", "ally", "any"] : List String).contains
      (target_str move) ∧ 0 < move.base_power ∧
      harmful_ally_singles.contains (lowerStr move.id)
  · rw [if_pos h1]
  · rw [if_neg h1, if_neg hbp, if_pos he]

/-- Every entry of the candidate list has a strictly positive score. -/
theorem candidates_list_pos (chart : TypeChart) (myMoves : List Move) (me : Pokemon)
    (opps : List Pokemon) (mem : MemRec) (ally : Option Pokemon)
    (prefer : Option Nat) :
    ∀ c ∈ candidates_list chart myMoves me opps mem ally prefer, 0 < c.1 := by
  intro c hc
  simp only [candidates_list] at hc
  rcases List.mem_append.mp hc with h | h
  · rcases List.mem_filterMap.mp h with ⟨m, _, hf⟩
    by_cases hs : is_spread m = true
    · simp only [hs, if_true] at hf
      by_cases hpos : 0 < move_score_spread chart m me opps mem ally
      · simp only [hpos, if_true, Option.some.injEq] at hf
        rw [← hf]
        exact hpos
      · simp [hpos] at hf
    · simp [hs] at hf
  · rcases List.mem_flatMap.mp h with ⟨m, _, hin⟩
    by_cases hs : is_spread m = true
    · simp [hs] at hin
    · simp only [hs, if_false, Bool.false_eq_true] at hin
      rcases List.mem_filterMap.mp hin with ⟨tp, _, hf⟩
      by_cases hpos : 0 < (if prefer_hits prefer tp.2 then
          move_score_vs_single chart m me tp.1 mem * 1.20
        else move_score_vs_single chart m me tp.1 mem)
      · simp only [hpos, if_true, Option.some.injEq] at hf
        rw [← hf]
        exact hpos
      · simp [hpos] at hf

/-- Any `tmap` entry carries protocol slot 1 or 2. -/
theorem tmap_of_ps (l : List Pokemon) (t : Pokemon) (ps : Nat) :
    (t, ps) ∈ tmap_of l → ps = 1 ∨ ps = 2 := by
  match l with
  | [] => intro h; simp [tmap_of] at h
  | [o1] =>
    intro h
    simp only [tmap_of, List.mem_singleton, Prod.mk.injEq] at h
    exact Or.inl h.2
  | o1 :: o2 :: rest =>
    intro h
    simp only [tmap_of, List.mem_cons, List.mem_singleton, Prod.mk.injEq,
      List.not_mem_nil, or_false] at h
    rcases h with h | h
    · exact Or.inl h.2
    · exact Or.inr h.2

/-- The protocol slot determines the `tmap` target. -/
theorem tmap_of_det (l : List Pokemon) (t1 t2 : Pokemon) (ps : Nat) :
    (t1, ps) ∈ tmap_of l → (t2, ps) ∈ tmap_of l → t1 = t2 := by
  match l with
  | [] => intro h; simp [tmap_of] at h
  | [o1] =>
    intro h1 h2
    simp only [tmap_of, List.mem_singleton, Prod.mk.injEq] at h1 h2
    rw [h1.1, h2.1]
  | o1 :: o2 :: rest =>
    intro h1 h2
    simp only [tmap_of, List.mem_cons, List.mem_singleton, Prod.mk.injEq,
      List.not_mem_nil, or_false] at h1 h2
    rcases h1 with ⟨ht1, hp1⟩ | ⟨ht1, hp1⟩ <;>
      rcases h2 with ⟨ht2, hp2⟩ | ⟨ht2, hp2⟩ <;>
      first
      | omega
      | rw [ht1, ht2]

/-- An immune (move, target) pair never enters the candidate list. -/
theorem immune_pair_notin_candidates (chart : TypeChart) (myMoves : List Move)
    (me : Pokemon) (opps : List Pokemon) (mem : MemRec) (ally : Option Pokemon)
    (prefer : Option Nat) (mv : Move) (tgt : Pokemon) (ps : Nat)
    (hbp : mv.base_power ≠ 0)
    (htm : (tgt, ps) ∈ tmap_of (opps.filter (fun o => !o.fainted)))
    (he : eff chart mv.type (some tgt) = 0) :
    ∀ (s : Rat) (w : String),
      (s, mv, ps, w) ∉ candidates_list chart myMoves me opps mem ally prefer := by
  intro s w hmem
  have hps : ps = 1 ∨ ps = 2 := tmap_of_ps _ _ _ htm
  simp only [candidates_list] at hmem
  rcases List.mem_append.mp hmem with h | h
  · rcases List.mem_filterMap.mp h with ⟨m, _, hf⟩
    by_cases hs : is_spread m = true
    · simp only [hs, if_true] at hf
      by_cases hpos : 0 < move_score_spread chart m me opps mem ally
      · simp only [hpos, if_true, Option.some.injEq, Prod.mk.injEq] at hf
        omega
      · simp [hpos] at hf
    · simp [hs] at hf
  · rcases List.mem_flatMap.mp h with ⟨m, _, hin⟩
    by_cases hs : is_spread m = true
    · simp [hs] at hin
    · simp only [hs, if_false, Bool.false_eq_true] at hin
      rcases List.mem_filterMap.mp hin with ⟨tp, htp, hf⟩
      by_cases hpos : 0 < (if prefer_hits prefer tp.2 then
          move_score_vs_single chart m me tp.1 mem * 1.20
        else move_score_vs_single chart m me tp.1 mem)
      · simp only [hpos, if_true, Option.some.injEq, Prod.mk.injEq] at hf
        obtain ⟨hfs, hfm, hfp, hfw⟩ := hf
        have htgt : tp.1 = tgt := by
          have : (tp.1, ps) ∈ tmap_of (opps.filter (fun o => !o.fainted)) := by
            rw [← hfp]
            exact htp
          exact tmap_of_det _ _ _ _ this htm
        have hzero : move_score_vs_single chart m me tp.1 mem = 0 := by
          rw [htgt, hfm]
          exact single_immune_zero chart mv me tgt mem hbp he
        rw [hzero] at hpos
        by_cases hpref : prefer_hits prefer tp.2 = true
        · simp [hpref] at hpos
        · simp [hpref] at hpos
      · simp [hpos] at hf

/-- C6: a damaging move with type effectiveness 0 against a target scores
0, every candidate in the list built by the orchestrator has a strictly
positive score, and such an immune (move, target) pair never appears in
the candidate list. -/
theorem immune_excluded_and_candidates_positive :
    ∀ (chart : TypeChart) (mv : Move) (me tgt : Pokemon) (mem : MemRec)
      (myMoves : List Move) (opps : List Pokemon) (ally : Option Pokemon)
      (prefer : Option Nat) (ps : Nat),
      (mv.base_power ≠ 0 → eff chart mv.type (some tgt) = 0 →
        move_score_vs_single chart mv me tgt mem = 0) ∧
      (∀ c ∈ candidates_list chart myMoves me opps mem ally prefer, 0 < c.1) ∧
      (mv.base_power ≠ 0 → eff chart mv.type (some tgt) = 0 →
        (tgt, ps) ∈ tmap_of (opps.filter (fun o => !o.fainted)) →
        ∀ (s : Rat) (w : String),
          (s, mv, ps, w) ∉ candidates_list chart myMoves me opps mem ally prefer) :=
  fun chart mv me tgt mem myMoves opps ally prefer ps =>
    ⟨fun hbp he => single_immune_zero chart mv me tgt mem hbp he,
     candidates_list_pos chart myMoves me opps mem ally prefer,
     fun hbp he htm => immune_pair_notin_candidates chart myMoves me opps mem ally
       prefer mv tgt ps hbp htm he⟩

/-- The all-zero type chart, for the C6 witness (full immunity). -/
def chart_zero : TypeChart := fun _ _ => 0

/-- A concrete damaging single-target move for the C6 witness. -/
def tackle_move : Move :=
  ⟨"tackle", some "normal", 40, some 1, "physical", .str "normal", false⟩

/-- Witness for C6 at a concrete input: against a fully immune target the
score is 0 and the pair is absent from the candidate list. -/
theorem immune_excluded_witness :
    move_score_vs_single chart_zero tackle_move mon_a mon_b mem_zero = 0 ∧
    ((3 : Rat), tackle_move, 1, "single") ∉
      candidates_list chart_zero [tackle_move] mon_a [mon_b] mem_zero none none :=
  have T := immune_excluded_and_candidates_positive chart_zero tackle_move mon_a
    mon_b mem_zero [tackle_move] [mon_b] none none 1
  have hbp : tackle_move.base_power ≠ 0 := by decide
  have he : eff chart_zero tackle_move.type (some mon_b) = 0 := by
    simp [eff, chart_zero, tackle_move, mon_b]
  have htm : (mon_b, 1) ∈ tmap_of ([mon_b].filter (fun o => !o.fainted)) := by
    simp [tmap_of, mon_b]
  ⟨T.1 hbp he, T.2.2 hbp he htm 3 "single"⟩

/-- A key found in the prefix is found in the concatenation. -/
theorem lookup_append_of_some {k : String} {r : MemRec} :
    ∀ (m l : MemMap), List.lookup k m = some r → List.lookup k (m ++ l) = some r := by
  intro m l h
  induction m with
  | nil => simp [List.lookup] at h
  | cons p t ih =>
    rcases p with ⟨a, b⟩
    simp only [List.cons_append, List.lookup] at h ⊢
    cases hk : (k == a) with
    | true => simpa [hk] using h
    | false =>
      simp only [hk] at h ⊢
      exact ih h

/-- A key absent from the prefix is looked up in the freshly appended
singleton. -/
theorem lookup_append_fresh {k : String} {r : MemRec} :
    ∀ m : MemMap, List.lookup k m = none → List.lookup k (m ++ [(k, r)]) = some r := by
  intro m h
  induction m with
  | nil => simp [List.lookup]
  | cons p t ih =>
    rcases p with ⟨a, b⟩
    simp only [List.cons_append, List.lookup] at h ⊢
    cases hk : (k == a) with
    | true => simp [hk] at h
    | false =>
      simp only [hk] at h ⊢
      exact ih h

/-- Unfolding equation for `List.lookup` on a cons cell, phrased with a
propositional key test. -/
theorem lookup_cons_eq (k a : String) (b : MemRec) (t : MemMap) :
    List.lookup k ((a, b) :: t) = if k = a then some b else List.lookup k t := by
  by_cases h : k = a
  · have hb : (k == a) = true := by simp [h]
    simp [List.lookup, hb, h]
  · have hb : (k == a) = false := by simp [beq_eq_false_iff_ne, h]
    simp [List.lookup, hb, h]

/-- Unfolding equation for `set_key` on a cons cell. -/
theorem set_key_cons (a k : String) (b r' : MemRec) (t : MemMap) :
    set_key ((a, b) :: t) k r' =
      (if a = k then (k, r') else (a, b)) :: set_key t k r' := rfl

/-- Updating via `set_key` stores the new record at its key (when the key is present). -/
theorem lookup_set_key_self {k : String} {r r' : MemRec} :
    ∀ m : MemMap, List.lookup k m = some r → List.lookup k (set_key m k r') = some r' := by
  intro m h
  induction m with
  | nil => simp [List.lookup] at h
  | cons p t ih =>
    rcases p with ⟨a, b⟩
    rw [lookup_cons_eq] at h
    rw [set_key_cons]
    by_cases ha : a = k
    · rw [if_pos ha, lookup_cons_eq, if_pos rfl]
    · rw [if_neg ha, lookup_cons_eq, if_neg (fun hk => ha hk.symm)]
      rw [if_neg (fun hk => ha hk.symm)] at h
      exact ih h

/-- Updating via `set_key` leaves other keys unchanged. -/
theorem lookup_set_key_ne {k k' : String} {r' : MemRec} (hne : k ≠ k') :
    ∀ m : MemMap, List.lookup k (set_key m k' r') = List.lookup k m := by
  intro m
  induction m with
  | nil => simp [set_key]
  | cons p t ih =>
    rcases p with ⟨a, b⟩
    rw [set_key_cons, lookup_cons_eq (t := t)]
    by_cases ha : a = k'
    · rw [if_pos ha, lookup_cons_eq, if_neg hne, ih, if_neg (ha ▸ hne)]
    · rw [if_neg ha, lookup_cons_eq, ih]

/-- The roster scan never clears the protect flag. -/
theorem team_flags_protect_mono :
    ∀ (team : List (Option TeamMon)) (r : MemRec), r.protect = true →
      (team_flags team r).protect = true := by
  intro team
  induction team with
  | nil => intro r h; exact h
  | cons mon? t ih =>
    intro r h
    simp only [team_flags, List.foldl_cons]
    cases mon? with
    | none => exact ih r h
    | some mon =>
      by_cases hemp : mon.moves.isEmpty = true
      · simp only [hemp, if_true]
        exact ih r h
      · simp only [hemp, if_false, Bool.false_eq_true]
        exact ih _ (by simp [h])

/-- The roster scan never clears the speed-control flag. -/
theorem team_flags_speed_mono :
    ∀ (team : List (Option TeamMon)) (r : MemRec), r.speed_ctrl = true →
      (team_flags team r).speed_ctrl = true := by
  intro team
  induction team with
  | nil => intro r h; exact h
  | cons mon? t ih =>
    intro r h
    simp only [team_flags, List.foldl_cons]
    cases mon? with
    | none => exact ih r h
    | some mon =>
      by_cases hemp : mon.moves.isEmpty = true
      · simp only [hemp, if_true]
        exact ih r h
      · simp only [hemp, if_false, Bool.false_eq_true]
        exact ih _ (by simp [h])

/-- A roster pokemon showing a protection move sets the protect flag. -/
theorem team_flags_protect_hit :
    ∀ (team : List (Option TeamMon)) (r : MemRec) (mon : TeamMon),
      some mon ∈ team → mon.moves.isEmpty = false →
      (mon.moves.map lowerStr).any (fun i => protect_ids.contains i) = true →
      (team_flags team r).protect = true := by
  intro team
  induction team with
  | nil => intro r mon hmem; simp at hmem
  | cons mon? t ih =>
    intro r mon hmem hemp hany
    rcases List.mem_cons.mp hmem with hhd | htl
    · simp only [team_flags, List.foldl_cons, ← hhd, hemp, if_false, Bool.false_eq_true]
      refine team_flags_protect_mono t _ ?_
      show (r.protect || (mon.moves.map lowerStr).any
        (fun i => protect_ids.contains i)) = true
      rw [hany, Bool.or_true]
    · simp only [team_flags, List.foldl_cons]
      cases mon? with
      | none => exact ih r mon htl hemp hany
      | some m2 =>
        by_cases hemp2 : m2.moves.isEmpty = true
        · simp only [hemp2, if_true]
          exact ih r mon htl hemp hany
        · simp only [hemp2, if_false, Bool.false_eq_true]
          exact ih _ mon htl hemp hany

/-- The map returned by `_get_series_mem` holds the returned record at the
battle's key. -/
theorem lookup_get_series_mem (m : MemMap) (b : Battle) :
    List.lookup (mem_key b) (get_series_mem m b).2 = some (get_series_mem m b).1 := by
  simp only [get_series_mem]
  cases hlk : List.lookup (mem_key b) m with
  | some r => simpa using hlk
  | none => simpa using lookup_append_fresh m hlk

/-- One profile update preserves a true protect flag at any key. -/
theorem protect_flag_step (m : MemMap) (b : Battle) (k : String)
    (h : protect_flag m k = true) : protect_flag (update_series_mem m b) k = true := by
  have hr : ∃ r, List.lookup k m = some r ∧ r.protect = true := by
    unfold protect_flag at h
    cases hlk : List.lookup k m with
    | none => rw [hlk] at h; simp at h
    | some r =>
      rw [hlk] at h
      simp at h
      exact ⟨r, rfl, h⟩
  obtain ⟨r, hlk, hrp⟩ := hr
  by_cases hkey : mem_key b = k
  · have hget : get_series_mem m b = (r, m) := by
      simp only [get_series_mem, hkey, hlk]
    simp only [update_series_mem, protect_flag, hget, hkey]
    rw [lookup_set_key_self m hlk]
    simpa using team_flags_protect_mono b.opponent_team r hrp
  · simp only [update_series_mem, protect_flag]
    rw [lookup_set_key_ne (fun hkk => hkey hkk.symm)]
    have hg2 : List.lookup k (get_series_mem m b).2 = some r := by
      simp only [get_series_mem]
      cases hlk2 : List.lookup (mem_key b) m with
      | some r2 => simpa using hlk
      | none => simpa using lookup_append_of_some m [(mem_key b, ⟨false, false⟩)] hlk
    rw [hg2]
    simpa using hrp

/-- One profile update preserves a true speed-control flag at any key. -/
theorem speed_flag_step (m : MemMap) (b : Battle) (k : String)
    (h : speed_flag m k = true) : speed_flag (update_series_mem m b) k = true := by
  have hr : ∃ r, List.lookup k m = some r ∧ r.speed_ctrl = true := by
    unfold speed_flag at h
    cases hlk : List.lookup k m with
    | none => rw [hlk] at h; simp at h
    | some r =>
      rw [hlk] at h
      simp at h
      exact ⟨r, rfl, h⟩
  obtain ⟨r, hlk, hrp⟩ := hr
  by_cases hkey : mem_key b = k
  · have hget : get_series_mem m b = (r, m) := by
      simp only [get_series_mem, hkey, hlk]
    simp only [update_series_mem, speed_flag, hget, hkey]
    rw [lookup_set_key_self m hlk]
    simpa using team_flags_speed_mono b.opponent_team r hrp
  · simp only [update_series_mem, speed_flag]
    rw [lookup_set_key_ne (fun hkk => hkey hkk.symm)]
    have hg2 : List.lookup k (get_series_mem m b).2 = some r := by
      simp only [get_series_mem]
      cases hlk2 : List.lookup (mem_key b) m with
      | some r2 => simpa using hlk
      | none => simpa using lookup_append_of_some m [(mem_key b, ⟨false, false⟩)] hlk
    rw [hg2]
    simpa using hrp

/-- C8: the profile record is created lazily on first reference with both
flags false, and each flag is monotone across every sequence of profile
updates: once true it is never set back to false. -/
theorem series_mem_lazy_and_monotone :
    ∀ (m : MemMap) (b : Battle) (bs : List Battle) (k : String),
      (List.lookup (mem_key b) m = none →
        (get_series_mem m b).1 = ⟨false, false⟩ ∧
        List.lookup (mem_key b) (get_series_mem m b).2 = some ⟨false, false⟩) ∧
      (protect_flag m k = true →
        protect_flag (bs.foldl update_series_mem m) k = true) ∧
      (speed_flag m k = true →
        speed_flag (bs.foldl update_series_mem m) k = true) := by
  intro m b bs k
  refine ⟨fun hnone => ?_, ?_, ?_⟩
  · have h1 : (get_series_mem m b).1 = ⟨false, false⟩ := by
      simp only [get_series_mem, hnone]
    exact ⟨h1, by rw [lookup_get_series_mem m b, h1]⟩
  · intro h
    induction bs generalizing m with
    | nil => exact h
    | cons b0 t ih => exact ih _ (protect_flag_step m b0 k h)
  · intro h
    induction bs generalizing m with
    | nil => exact h
    | cons b0 t ih => exact ih _ (speed_flag_step m b0 k h)

/-- A concrete battle against a known opponent name, for the C8 witness. -/
def battle_bob : Battle := ⟨some 1, some "bob", [], [], .flat [], none, []⟩

/-- Witness for C8 at a concrete input: the record for a fresh opponent is
created with both flags false, and a true flag under another key survives
an update. -/
theorem series_mem_lazy_and_monotone_witness :
    (get_series_mem [("alice", ⟨true, true⟩)] battle_bob).1 = ⟨false, false⟩ ∧
    protect_flag ([battle_bob].foldl update_series_mem [("alice", ⟨true, true⟩)])
      "alice" = true :=
  have T := series_mem_lazy_and_monotone [("alice", ⟨true, true⟩)] battle_bob
    [battle_bob] "alice"
  ⟨(T.1 (by decide)).1, T.2.1 (by decide)⟩

/-- C9: battles with an absent or empty opponent identity all resolve to
the single sentinel key `_unknown_`, read the same profile record, and an
observation recorded from one such battle is visible through the key of
any other. -/
theorem unknown_opponent_shared_profile :
    ∀ (m : MemMap) (b1 b2 : Battle),
      (b1.opponent_username = none ∨ b1.opponent_username = some "") →
      (b2.opponent_username = none ∨ b2.opponent_username = some "") →
      mem_key b1 = "_unknown_" ∧ mem_key b2 = "_unknown_" ∧
      (get_series_mem m b1).1 = (get_series_mem m b2).1 ∧
      (∀ mon : TeamMon, some mon ∈ b1.opponent_team → mon.moves.isEmpty = false →
        (mon.moves.map lowerStr).any (fun i => protect_ids.contains i) = true →
        protect_flag (update_series_mem m b1) (mem_key b2) = true) := by
  intro m b1 b2 h1 h2
  have hk1 : mem_key b1 = "_unknown_" := by
    rcases h1 with h | h <;> simp [mem_key, h]
  have hk2 : mem_key b2 = "_unknown_" := by
    rcases h2 with h | h <;> simp [mem_key, h]
  have hkk : mem_key b1 = mem_key b2 := by rw [hk1, hk2]
  refine ⟨hk1, hk2, ?_, ?_⟩
  · simp only [get_series_mem, hkk]
  · intro mon hmon hemp hany
    have hprot : (team_flags b1.opponent_team (get_series_mem m b1).1).protect = true :=
      team_flags_protect_hit b1.opponent_team _ mon hmon hemp hany
    simp only [update_series_mem, protect_flag, ← hkk]
    rw [lookup_set_key_self _ (lookup_get_series_mem m b1)]
    simpa using hprot

/-- A concrete battle with no opponent identity whose visible roster shows
Protect. -/
def battle_unknown1 : Battle :=
  ⟨some 1, none, [], [], .flat [], none, [some ⟨["protect"]⟩]⟩

/-- A concrete battle whose opponent identity is the empty string. -/
def battle_unknown2 : Battle := ⟨some 1, some "", [], [], .flat [], none, []⟩

/-- Witness for C9 at a concrete input. -/
theorem unknown_opponent_shared_profile_witness :
    mem_key battle_unknown1 = "_unknown_" ∧
    protect_flag (update_series_mem [] battle_unknown1) (mem_key battle_unknown2) = true :=
  have T := unknown_opponent_shared_profile [] battle_unknown1 battle_unknown2
    (Or.inl rfl) (Or.inr rfl)
  ⟨T.1, T.2.2.2 ⟨["protect"]⟩ (by simp [battle_unknown1]) (by decide) (by decide)⟩

/-- C3: `choose_move` never propagates an exception: whenever the per-turn
evaluation body raises, the whole turn degrades to the uniform-random
decision instead. -/
theorem choose_move_never_raises :
    ∀ (chart : TypeChart) (memMap : MemMap) (b : Battle) (e : String),
      choose_move_body chart memMap b = .error e →
      choose_move chart memMap b = Decision.random := by
  intro chart memMap b e h
  simp only [choose_move, h]

/-- A concrete battle snapshot that lacks the `turn` attribute and offers
no moves, so the per-turn body raises at the slot-0 fallback log line. -/
def battle_no_turn : Battle :=
  ⟨none, some "bob", [some mon_a], [some mon_b], .flat [], none, []⟩

/-- Witness for C3 at a concrete input: the body raises and the top-level
decision is the random fallback. -/
theorem choose_move_never_raises_witness :
    choose_move_body chart_one [] battle_no_turn = .error "AttributeError: turn" ∧
    choose_move chart_one [] battle_no_turn = Decision.random :=
  have h : choose_move_body chart_one [] battle_no_turn =
      .error "AttributeError: turn" := by rfl
  ⟨h, choose_move_never_raises chart_one [] battle_no_turn "AttributeError: turn" h⟩
